import Mathlib

/-!
Shallow embedding of the translation core of src/backend/server.py
(a rule-driven VB / VB.NET / C# transpiler) and proofs about the
claims of the specification.

Conventions of the embedding:
  - Python strings are Lean String values; most internal work happens on
    List Char (abbreviated Str below).
  - The regular-expression substitution used by the source (re.sub with
    the constructs \b \s \w . [\w\s] + * +? (?=..) (..|..) $ and numbered
    groups) is implemented by a small backtracking matcher below.  The
    matcher takes a fuel argument only to make the recursion structural;
    the fuel passed at every call site provably exceeds the maximal
    recursion depth (the pattern-size measure strictly decreases along
    every call chain), so the fuel never runs out.
  - Random identifiers produced by uuid.uuid4() in the source are opaque
    and carry no behaviour; they are not modelled.
  - The network call of call_mcp_server is modelled by a NetOutcome value
    describing what the transport did (exception or a response), exactly
    covering the branches of the source.
-/

abbrev Str := List Char

/-- Python \w (ASCII range, as exercised by the rule tables): letters, digits, underscore. -/
def isWordChar (c : Char) : Bool := c.isAlphanum || c == '_'

/-- Python \s (ASCII range): space, tab, newline, carriage return, vertical tab, form feed. -/
def isSpaceChar (c : Char) : Bool :=
  c == ' ' || c == '\t' || c == '\n' || c == '\r' || c == '\x0b' || c == '\x0c'

/-- Python str.lower, character by character (ASCII, which covers every dialect tag used). -/
def pyLower (s : String) : String := ⟨s.data.map Char.toLower⟩

/-- Python str.startswith on character lists. -/
def strStarts : Str → Str → Bool
  | [], _ => true
  | _ :: _, [] => false
  | p :: ps, c :: cs => p == c && strStarts ps cs

/-- Python str.endswith on character lists. -/
def strEnds (p s : Str) : Bool := strStarts p.reverse s.reverse

/-- Python substring membership test (pat in s). -/
def strHas (p : Str) : Str → Bool
  | [] => strStarts p []
  | s@(_ :: t) => strStarts p s || strHas p t

/-- Substring membership on Lean strings. -/
def hasSub (p s : String) : Bool := strHas p.data s.data

/-- Python str.strip with no argument: drop whitespace from both ends. -/
def pyStripL (l : Str) : Str :=
  ((l.dropWhile isSpaceChar).reverse.dropWhile isSpaceChar).reverse

/-- Python str.strip on Lean strings. -/
def pyStrip (s : String) : String := ⟨pyStripL s.data⟩

/-- Python s[:n] slicing on Lean strings. -/
def pyTake (n : Nat) (s : String) : String := ⟨s.data.take n⟩

/-- Python str.split with separator newline; the empty string yields one empty line. -/
def splitNl : Str → List Str
  | [] => [[]]
  | c :: s =>
    if c == '\n' then [] :: splitNl s
    else
      match splitNl s with
      | [] => [[c]]
      | h :: t => (c :: h) :: t

/-- Python newline.join. -/
def joinNl : List Str → Str
  | [] => []
  | [l] => l
  | l :: ls => l ++ '\n' :: joinNl ls

/-- Python str.replace (all occurrences, scanning left to right without
overlap).  The fuel is the length of the string plus one; every step
consumes at least one character, so it suffices. -/
def replAllF : Nat → Str → Str → Str → Str
  | 0, _, _, s => s
  | _ + 1, _, _, [] => []
  | f + 1, p, r, c :: s =>
    if !p.isEmpty && strStarts p (c :: s) then r ++ replAllF f p r ((c :: s).drop p.length)
    else c :: replAllF f p r s

/-- Python s.replace(pat, rep) on Lean strings. -/
def pyReplace (s pat rep : String) : String :=
  ⟨replAllF (s.data.length + 1) pat.data rep.data s.data⟩

/-! ## Regular-expression engine (the subset used by re.sub in server.py) -/

/-- Single-character classes occurring in the rule patterns. -/
inductive CCls where
  | word        -- \w
  | space       -- \s
  | anyNoNl     -- .  (no DOTALL use reaches a dot in the source patterns)
  | wordOrSpace -- [\w\s]

def CCls.test : CCls → Char → Bool
  | .word, c => isWordChar c
  | .space, c => isSpaceChar c
  | .anyNoNl, c => !(c == '\n')
  | .wordOrSpace, c => isWordChar c || isSpaceChar c

/-- Pattern elements.  Groups are written in flattened form: gOpen i marks
the opening parenthesis of group i and gClose i its closing parenthesis. -/
inductive RElem where
  | lit (s : Str)                          -- literal characters
  | many (k : CCls) (min1 : Bool) (lzy : Bool) -- k+ or k* (greedy or lazy)
  | wb                                     -- \b
  | eol                                    -- $ under MULTILINE
  | gOpen (i : Nat)
  | gClose (i : Nat)
  | alt (bs : List (List RElem))           -- alternation
  | look (r : List RElem)                  -- (?=...) lookahead

/-- Character comparison under the optional IGNORECASE flag. -/
def chEq (ign : Bool) (a b : Char) : Bool :=
  if ign then a.toLower == b.toLower else a == b

/-- Consume one literal; returns the rest of the input and the last
consumed input character (needed by later word-boundary tests). -/
def takeLit (ign : Bool) : Str → Str → Option Char → Option (Str × Option Char)
  | [], s, prev => some (s, prev)
  | _ :: _, [], _ => none
  | p :: ps, c :: s, _ => if chEq ign p c then takeLit ign ps s (some c) else none

def isWordO : Option Char → Bool
  | none => false
  | some c => isWordChar c

/-- A \b position: word-ness changes between the previous character and the next. -/
def atBoundary (prev : Option Char) (s : Str) : Bool :=
  isWordO prev != isWordO s.head?

/-- Length of the maximal run of class characters at the start of the input. -/
def runLen (k : CCls) : Str → Nat
  | [] => 0
  | c :: s => if k.test c then runLen k s + 1 else 0

/-- Candidate repeat counts in the order a Python quantifier tries them:
longest first when greedy, shortest first when lazy. -/
def countsFor (run lo : Nat) (lzy : Bool) : List Nat :=
  if lzy then (List.range (run + 1 - lo)).map (· + lo)
  else (List.range (run + 1 - lo)).map (fun i => run - i)

def findCap (i : Nat) : List (Nat × Str) → Option Str
  | [] => none
  | (j, s) :: t => if j == i then some s else findCap i t

/-- Backtracking matcher.  On success returns the unconsumed input and the
finished captures.  The fuel argument makes the recursion structural; the
size measure of the element list strictly decreases along every call, so a
fuel exceeding that size is never exhausted. -/
def mAll (ign : Bool) : Nat → List RElem → Str → Option Char →
    List (Nat × Str) → List (Nat × Str) → Option (Str × List (Nat × Str))
  | 0, _, _, _, _, _ => none
  | _ + 1, [], s, _, _, done => some (s, done)
  | f + 1, e :: rest, s, prev, opens, done =>
    match e with
    | .lit l =>
      match takeLit ign l s prev with
      | some (s1, prev1) => mAll ign f rest s1 prev1 opens done
      | none => none
    | .many k min1 lzy =>
      let run := runLen k s
      let lo := if min1 then 1 else 0
      (countsFor run lo lzy).findSome? (fun n =>
        mAll ign f rest (s.drop n) (if n == 0 then prev else s.get? (n - 1)) opens done)
    | .wb => if atBoundary prev s then mAll ign f rest s prev opens done else none
    | .eol =>
      if s.isEmpty || s.head? == some '\n' then mAll ign f rest s prev opens done else none
    | .gOpen i => mAll ign f rest s prev ((i, s) :: opens) done
    | .gClose i =>
      match findCap i opens with
      | some st => mAll ign f rest s prev opens ((i, st.take (st.length - s.length)) :: done)
      | none => none
    | .alt bs => bs.findSome? (fun b => mAll ign f (b ++ rest) s prev opens done)
    | .look r =>
      match mAll ign f r s prev opens done with
      | some _ => mAll ign f rest s prev opens done
      | none => none

mutual
def reSize : RElem → Nat
  | .alt bs => 1 + reSizeAlts bs
  | .look r => 1 + reSizeL r
  | _ => 1
def reSizeAlts : List (List RElem) → Nat
  | [] => 0
  | b :: bs => reSizeL b + 1 + reSizeAlts bs
def reSizeL : List RElem → Nat
  | [] => 0
  | e :: rest => reSize e + reSizeL rest
end

/-- Attempt a match at the current position (re.match semantics at one
offset); returns the consumed length and the captures. -/
def tryMatchAt (ign : Bool) (pat : List RElem) (s : Str) (prev : Option Char) :
    Option (Nat × List (Nat × Str)) :=
  match mAll ign (reSizeL pat + 2) pat s prev [] [] with
  | some (rem, done) => some (s.length - rem.length, done)
  | none => none

/-- Replacement-template items: literal text or a numbered group reference. -/
inductive TItem where
  | str (s : Str)
  | grp (i : Nat)

def render (done : List (Nat × Str)) : List TItem → Str
  | [] => []
  | .str l :: t => l ++ render done t
  | .grp i :: t => (findCap i done).getD [] ++ render done t

/-- One re.sub pass: scan the original input left to right, replacing each
non-overlapping match.  Matching always looks at the original characters
(replacement text is never rescanned within one pass), exactly as re.sub
does.  The fuel is the input length plus two; every step consumes at
least one input character. -/
def subScan (ign : Bool) (pat : List RElem) (tmpl : List TItem) : Nat → Option Char → Str → Str
  | 0, _, s => s
  | f + 1, prev, s =>
    match tryMatchAt ign pat s prev with
    | some (n, done) =>
      if n == 0 then
        match s with
        | [] => render done tmpl
        | c :: s1 => render done tmpl ++ c :: subScan ign pat tmpl f (some c) s1
      else
        render done tmpl ++ subScan ign pat tmpl f (s.get? (n - 1)) (s.drop n)
    | none =>
      match s with
      | [] => []
      | c :: s1 => c :: subScan ign pat tmpl f (some c) s1

/-- re.sub(pattern, template, s) with the given IGNORECASE flag. -/
def pySub (ign : Bool) (pat : List RElem) (tmpl : List TItem) (s : Str) : Str :=
  subScan ign pat tmpl (s.length + 2) none s

/-- An ordered rewrite rule: match pattern and replacement template. -/
structure Rule where
  pat : List RElem
  tmpl : List TItem

/-- Sequential application of an ordered rule list, each rule rewriting
the output of the previous one (the for loop over re.sub calls). -/
def applyRules (ign : Bool) (rs : List Rule) (s : Str) : Str :=
  rs.foldl (fun acc r => pySub ign r.pat r.tmpl acc) s

/-! Shorthand for transcribing the source patterns. -/

def L (s : String) : RElem := .lit s.data
def S (s : String) : TItem := .str s.data
/-- (\w+) captured as group i. -/
def W1 (i : Nat) : List RElem := [.gOpen i, .many .word true false, .gClose i]
/-- (.+) captured as group i. -/
def dotG (i : Nat) : List RElem := [.gOpen i, .many .anyNoNl true false, .gClose i]
/-- (.+?) captured as group i. -/
def dotGLzy (i : Nat) : List RElem := [.gOpen i, .many .anyNoNl true true, .gClose i]
/-- \s+ -/
def sp1 : RElem := .many .space true false
/-- \s* -/
def sp0 : RElem := .many .space false false
/-- The apostrophe character (VB comment marker). -/
def qc : Char := Char.ofNat 39

/-! ## Rule tables (server.py lines 207 to 341) -/

/-- transpile_vb_to_vbnet rule list (lines 212 to 220); re.sub is called
with no flags, hence case-sensitively. -/
def vb_to_vbnet_replacements : List Rule := [
  ⟨[.wb, L "Dim", sp1] ++ W1 1 ++ [sp1, L "As", sp1, L "Integer", .wb],
    [S "Dim ", .grp 1, S " As Integer"]⟩,
  ⟨[.wb, L "Dim", sp1] ++ W1 1 ++ [sp1, L "As", sp1, L "String", .wb],
    [S "Dim ", .grp 1, S " As String"]⟩,
  ⟨[.wb, L "Sub", sp1, L "Main()"], [S "Sub Main()"]⟩,
  ⟨[.wb, L "End Sub", .wb], [S "End Sub"]⟩,
  ⟨[.wb, L "End Function", .wb], [S "End Function"]⟩,
  ⟨[.wb, L "Public Sub", .wb], [S "Public Sub"]⟩,
  ⟨[.wb, L "Private Sub", .wb], [S "Private Sub"]⟩]

/-- The flag set of the re.sub calls in transpile_vb_to_vbnet: no IGNORECASE. -/
def vb_to_vbnet_ignorecase : Bool := false

def transpile_vb_to_vbnet (code : String) : String :=
  ⟨applyRules vb_to_vbnet_ignorecase vb_to_vbnet_replacements code.data⟩

/-- transpile_vbnet_to_csharp rule list (lines 232 to 271), applied with
IGNORECASE and MULTILINE. -/
def vbnet_to_csharp_conversions : List Rule := [
  ⟨[.lit [qc]], [S "//"]⟩,
  ⟨[.wb, L "Public Class "] ++ W1 1, [S "public class ", .grp 1, S " \x7b"]⟩,
  ⟨[.wb, L "Private Class "] ++ W1 1, [S "private class ", .grp 1, S " \x7b"]⟩,
  ⟨[.wb, L "Class "] ++ W1 1, [S "class ", .grp 1, S " \x7b"]⟩,
  ⟨[.wb, L "End Class", .wb], [S "\x7d"]⟩,
  ⟨[.wb, L "Public Sub "] ++ W1 1 ++ [L "()"], [S "public void ", .grp 1, S "() \x7b"]⟩,
  ⟨[.wb, L "Private Sub "] ++ W1 1 ++ [L "()"], [S "private void ", .grp 1, S "() \x7b"]⟩,
  ⟨[.wb, L "Public Function "] ++ W1 1 ++ [L "() As "] ++ W1 2,
    [S "public ", .grp 2, S " ", .grp 1, S "() \x7b"]⟩,
  ⟨[.wb, L "Private Function "] ++ W1 1 ++ [L "() As "] ++ W1 2,
    [S "private ", .grp 2, S " ", .grp 1, S "() \x7b"]⟩,
  ⟨[.wb, L "End Sub", .wb], [S "\x7d"]⟩,
  ⟨[.wb, L "End Function", .wb], [S "\x7d"]⟩,
  ⟨[.wb, L "Public Property "] ++ W1 1 ++ [L "() As "] ++ W1 2,
    [S "public ", .grp 2, S " ", .grp 1, S " \x7b get; set; \x7d"]⟩,
  ⟨[.wb, L "Private Property "] ++ W1 1 ++ [L "() As "] ++ W1 2,
    [S "private ", .grp 2, S " ", .grp 1, S " \x7b get; set; \x7d"]⟩,
  ⟨[.wb, L "Dim "] ++ W1 1 ++ [L " As Integer", .wb], [S "int ", .grp 1, S ";"]⟩,
  ⟨[.wb, L "Dim "] ++ W1 1 ++ [L " As String", .wb], [S "string ", .grp 1, S ";"]⟩,
  ⟨[.wb, L "Dim "] ++ W1 1 ++ [L " As Boolean", .wb], [S "bool ", .grp 1, S ";"]⟩,
  ⟨[.wb, L "Dim "] ++ W1 1 ++ [L " As Double", .wb], [S "double ", .grp 1, S ";"]⟩,
  ⟨[.wb, L "If "] ++ dotG 1 ++ [L " Then"], [S "if (", .grp 1, S ") \x7b"]⟩,
  ⟨[.wb, L "End If", .wb], [S "\x7d"]⟩,
  ⟨[.wb, L "ElseIf"], [S "\x7d else if"]⟩,
  ⟨[.wb, L "Else", .wb], [S "\x7d else \x7b"]⟩,
  ⟨[.wb, L "For Each "] ++ W1 1 ++ [L " As "] ++ W1 2 ++ [L " In "] ++ dotG 3,
    [S "foreach (", .grp 2, S " ", .grp 1, S " in ", .grp 3, S ") \x7b"]⟩,
  ⟨[.wb, L "For "] ++ W1 1 ++ [L " As Integer = "] ++ dotG 2 ++ [L " To "] ++ dotG 3,
    [S "for (int ", .grp 1, S " = ", .grp 2, S "; ", .grp 1, S " <= ", .grp 3, S "; ",
     .grp 1, S "++) \x7b"]⟩,
  ⟨[.wb, L "Next", .wb], [S "\x7d"]⟩,
  ⟨[sp1, L "&", sp1], [S " + "]⟩,
  ⟨[.wb, L "AndAlso", .wb], [S "&&"]⟩,
  ⟨[.wb, L "OrElse", .wb], [S "||"]⟩,
  ⟨[.wb, L "Not", .wb], [S "!"]⟩]

/-- The flag set of the re.sub calls in transpile_vbnet_to_csharp:
IGNORECASE (and MULTILINE, which only affects the unused anchors). -/
def vbnet_to_csharp_ignorecase : Bool := true

def transpile_vbnet_to_csharp (code : String) : String :=
  ⟨applyRules vbnet_to_csharp_ignorecase vbnet_to_csharp_conversions code.data⟩

/-- transpile_csharp_to_vbnet rule list (lines 283 to 309), applied with
MULTILINE only, hence case-sensitively. -/
def csharp_to_vbnet_conversions : List Rule := [
  ⟨[L "//"], [.str [qc]]⟩,
  ⟨[L ";"], [S ""]⟩,
  ⟨[L "public class "] ++ W1 1 ++ [sp0, L "\x7b"], [S "Public Class ", .grp 1]⟩,
  ⟨[L "private class "] ++ W1 1 ++ [sp0, L "\x7b"], [S "Private Class ", .grp 1]⟩,
  ⟨[L "public void "] ++ W1 1 ++ [L "()", sp0, L "\x7b"], [S "Public Sub ", .grp 1, S "()"]⟩,
  ⟨[L "private void "] ++ W1 1 ++ [L "()", sp0, L "\x7b"], [S "Private Sub ", .grp 1, S "()"]⟩,
  ⟨[L "public "] ++ W1 1 ++ [L " "] ++ W1 2 ++ [L "()", sp0, L "\x7b"],
    [S "Public Function ", .grp 2, S "() As ", .grp 1]⟩,
  ⟨[L "private "] ++ W1 1 ++ [L " "] ++ W1 2 ++ [L "()", sp0, L "\x7b"],
    [S "Private Function ", .grp 2, S "() As ", .grp 1]⟩,
  ⟨[L "public "] ++ W1 1 ++ [L " "] ++ W1 2 ++ [L " \x7b get; set; \x7d"],
    [S "Public Property ", .grp 2, S "() As ", .grp 1]⟩,
  ⟨[L "int "] ++ W1 1, [S "Dim ", .grp 1, S " As Integer"]⟩,
  ⟨[L "string "] ++ W1 1, [S "Dim ", .grp 1, S " As String"]⟩,
  ⟨[L "bool "] ++ W1 1, [S "Dim ", .grp 1, S " As Boolean"]⟩,
  ⟨[L "double "] ++ W1 1, [S "Dim ", .grp 1, S " As Double"]⟩,
  ⟨[L "if ("] ++ dotGLzy 1 ++ [L ")", sp0, L "\x7b"], [S "If ", .grp 1, S " Then"]⟩,
  ⟨[L "else if"], [S "ElseIf"]⟩,
  ⟨[L "else", sp0, L "\x7b"], [S "Else"]⟩,
  ⟨[L "\x7d"], [S ""]⟩]

/-- The flag set of the re.sub calls in transpile_csharp_to_vbnet: no IGNORECASE. -/
def csharp_to_vbnet_ignorecase : Bool := false

/-- Line 315: re.sub of (Public|Private) Class with the identical text. -/
def pubPrivClassRule : Rule :=
  ⟨[.gOpen 1, .alt [[L "Public"], [L "Private"]], .gClose 1, L " Class"],
   [.grp 1, S " Class"]⟩

/-- The block-kind a line is pushed as by the loop of lines 320 to 335. -/
def lineKind (stripped : Str) : Option String :=
  if strStarts "Public Class".data stripped || strStarts "Private Class".data stripped ||
      strStarts "Class ".data stripped then some "Class"
  else if strStarts "Public Sub".data stripped || strStarts "Private Sub".data stripped then
    some "Sub"
  else if strStarts "Public Function".data stripped ||
      strStarts "Private Function".data stripped then some "Function"
  else if strStarts "If ".data stripped && strEnds " Then".data stripped then some "If"
  else none

/-- The for loop of lines 316 to 335: every branch appends the line
unchanged to new_lines while an indent stack is recorded (and, in the
source, never used afterwards).  Returns (new_lines, indent_stack). -/
def addEndPass (lines : List Str) : List Str × List String :=
  lines.foldl
    (fun acc line =>
      match lineKind (pyStripL line) with
      | some k => (acc.1 ++ [line], acc.2 ++ [k])
      | none => (acc.1 ++ [line], acc.2))
    ([], [])

/-- Line 339: the End Class insertion rule
(Public|Private) Class ([\w\s]+?)(?=newline(?:Public|Private|End|$)). -/
def endClassRule : Rule :=
  ⟨[.gOpen 1, .alt [[L "Public"], [L "Private"]], .gClose 1, L " Class ",
    .gOpen 2, .many .wordOrSpace true true, .gClose 2,
    .look [L "\n", .alt [[L "Public"], [L "Private"], [L "End"], [.eol]]]],
   [.grp 1, S " Class ", .grp 2, S "\nEnd Class"]⟩

def transpile_csharp_to_vbnet (code : String) : String :=
  let r1 := applyRules csharp_to_vbnet_ignorecase csharp_to_vbnet_conversions code.data
  let r2 := pySub false pubPrivClassRule.pat pubPrivClassRule.tmpl r1
  let r3 := joinNl (addEndPass (splitNl r2)).1
  let r4 := pySub false endClassRule.pat endClassRule.tmpl r3
  ⟨r4⟩

/-! ## The rule-based engine entry point (server.py lines 168 to 205) -/

/-- Dialect tag normalization: lower case, strip spaces, strip periods
(lines 174 to 175). -/
def normalize_lang (s : String) : String :=
  pyReplace (pyReplace (pyLower s) " " "") "." ""

/-- The error message of line 202 (built from the raw, unnormalized tags). -/
def unsupportedMsg (source_lang target_lang : String) : String :=
  "Conversion from " ++ source_lang ++ " to " ++ target_lang ++ " not supported"

/-- The closed set of dialect pairs the if chain of lines 180 to 199 accepts,
stated over normalized tags. -/
def supportedPair (source target : String) : Prop :=
  (source = "vb" ∧ target = "vbnet") ∨
  (source = "vbnet" ∧ (target = "csharp" ∨ target = "c#")) ∨
  ((source = "csharp" ∨ source = "c#") ∧ target = "vbnet") ∨
  (source = "vb" ∧ (target = "csharp" ∨ target = "c#"))

instance (s t : String) : Decidable (supportedPair s t) := by
  unfold supportedPair; infer_instance

/-- transpile_rule_based: returns (transpiled, warnings, errors). -/
def transpile_rule_based (code source_lang target_lang : String) :
    String × List String × List String :=
  let source := normalize_lang source_lang
  let target := normalize_lang target_lang
  if source = "vb" ∧ target = "vbnet" then
    (transpile_vb_to_vbnet code,
     ["Manual review recommended: Some VB6 features may not be directly compatible with VB.NET"],
     [])
  else if source = "vbnet" ∧ (target = "csharp" ∨ target = "c#") then
    (transpile_vbnet_to_csharp code,
     ["Converted VB.NET to C#. Review Option Strict and type conversions."], [])
  else if (source = "csharp" ∨ source = "c#") ∧ target = "vbnet" then
    (transpile_csharp_to_vbnet code,
     ["Converted C# to VB.NET. Review semicolons and brackets."], [])
  else if source = "vb" ∧ (target = "csharp" ∨ target = "c#") then
    (transpile_vbnet_to_csharp (transpile_vb_to_vbnet code),
     ["Two-step conversion (VB -> VB.NET -> C#). Extensive testing required."], [])
  else
    (code, [], [unsupportedMsg source_lang target_lang])

/-! ## Trees (server.py lines 103 to 133) -/

/-- A native tree-sitter node: kind tag, start and end rows, optional raw
text, children. -/
inductive TSNode where
  | mk (kind : String) (start_point end_point : Nat) (text : Option String)
       (children : List TSNode)

/-- node.text.decode(utf8)[:100] if node.text else the empty string. -/
def tsText : Option String → String
  | some t => pyTake 100 t
  | none => ""

/-- The dictionary produced by tree_to_dict: either the depth sentinel
(a dictionary holding only the kind max_depth_reached and in particular
no children entry) or a full node.  The random id field is not modelled. -/
inductive DictNode where
  | sentinel
  | node (kind : String) (start_line end_line : Nat) (text : String)
         (children : List DictNode)

mutual
/-- tree_to_dict (lines 116 to 133).  Children are the first 20 children,
converted at depth current_depth + 1, and only attached while
current_depth < max_depth. -/
def tree_to_dict : TSNode → Nat → Nat → DictNode
  | .mk kind sp ep tx cs, max_depth, current_depth =>
    if current_depth > max_depth then .sentinel
    else
      .node kind sp ep (tsText tx)
        (if cs.length > 0 && decide (current_depth < max_depth) then
          listToDict cs 20 max_depth (current_depth + 1)
         else [])
/-- The list comprehension over node.children[:20]. -/
def listToDict : List TSNode → Nat → Nat → Nat → List DictNode
  | [], _, _, _ => []
  | _ :: _, 0, _, _ => []
  | c :: cs, k + 1, max_depth, cd => tree_to_dict c max_depth cd :: listToDict cs k max_depth cd
end

def dictChildren : DictNode → List DictNode
  | .sentinel => []
  | .node _ _ _ _ cs => cs

/-- node.get(type, default empty) of build_semantic_tree. -/
def dictKind : DictNode → String
  | .sentinel => "max_depth_reached"
  | .node kind _ _ _ _ => kind

def dictText : DictNode → String
  | .sentinel => ""
  | .node _ _ _ tx _ => tx

def dictLine : DictNode → Nat
  | .sentinel => 0
  | .node _ sl _ _ _ => sl

def isSentinel : DictNode → Bool
  | .sentinel => true
  | .node _ _ _ _ _ => false

mutual
/-- The maximal node depth of the produced dictionary: a childless node is
at relative depth zero. -/
def dHeight : DictNode → Nat
  | .sentinel => 0
  | .node _ _ _ _ cs => dHeightList cs
def dHeightList : List DictNode → Nat
  | [] => 0
  | c :: cs => max (dHeight c + 1) (dHeightList cs)
end

mutual
/-- Every node of the tree has at most 20 children. -/
def dBounded : DictNode → Bool
  | .sentinel => true
  | .node _ _ _ _ cs => decide (cs.length ≤ 20) && dBoundedList cs
def dBoundedList : List DictNode → Bool
  | [] => true
  | c :: cs => dBounded c && dBoundedList cs
end

/-! ## Semantic summarizer (server.py lines 135 to 166) -/

structure SemEntry where
  name : String
  line : Nat
deriving DecidableEq, Repr

structure Semantic where
  classes : List SemEntry
  methods : List SemEntry
  properties : List SemEntry
  imports : List SemEntry
deriving DecidableEq, Repr

/-- The if/elif chain of lines 145 to 160 classifying one node into at most
one of the category lists (appending name text[:50] and start line). -/
def classifyInto (acc : Semantic) (node_type : String) (text : String) (start_line : Nat) :
    Semantic :=
  let low := pyLower node_type
  if hasSub "class" low then
    { acc with classes := acc.classes ++ [⟨pyTake 50 text, start_line⟩] }
  else if hasSub "method" low || hasSub "function" low then
    { acc with methods := acc.methods ++ [⟨pyTake 50 text, start_line⟩] }
  else if hasSub "property" low || hasSub "field" low then
    { acc with properties := acc.properties ++ [⟨pyTake 50 text, start_line⟩] }
  else acc

/-- Whether a kind tag matches any of the five category keywords. -/
def matchesAny (node_type : String) : Bool :=
  let low := pyLower node_type
  hasSub "class" low || hasSub "method" low || hasSub "function" low ||
    hasSub "property" low || hasSub "field" low

mutual
/-- The recursive inner traversal of lines 144 to 163: classify the node, then
visit its children in order (pre-order), threading the four lists. -/
def travNode : Semantic → DictNode → Semantic
  | acc, .sentinel => classifyInto acc "max_depth_reached" "" 0
  | acc, .node kind sl _ tx cs => travList (classifyInto acc kind tx sl) cs
def travList : Semantic → List DictNode → Semantic
  | acc, [] => acc
  | acc, c :: cs => travList (travNode acc c) cs
end

def build_semantic_tree (ast_data : DictNode) : Semantic :=
  travNode ⟨[], [], [], []⟩ ast_data

mutual
/-- No node of the tree matches any category keyword. -/
def allNoMatch : DictNode → Bool
  | .sentinel => !matchesAny "max_depth_reached"
  | .node kind _ _ _ cs => !matchesAny kind && allNoMatchList cs
def allNoMatchList : List DictNode → Bool
  | [] => true
  | c :: cs => allNoMatch c && allNoMatchList cs
end

/-! ## Parse and validate endpoints (server.py lines 103 to 114, 348 to 386, 434 to 463) -/

/-- The behaviour of a loaded tree-sitter parser, as a function from source
text to a native tree. -/
abbrev ParserFun := String → TSNode

/-- parse_code_to_ast: only the C-family tags reach the single parser; any
other tag (and an unavailable parser) yields None. -/
def parse_code_to_ast (parser_c_sharp : Option ParserFun) (code language : String) :
    Option DictNode :=
  if pyLower language ∈ (["c#", "csharp", "c_sharp"] : List String) then
    match parser_c_sharp with
    | none => none
    | some p => some (tree_to_dict (p code) 50 0)
  else none

/-- len(code.split(newline)). -/
def numLines (code : String) : Nat := (splitNl code.data).length

/-- The mock AST synthesized by parse_code for ungrammared dialects
(lines 356 to 372); the random child id is not modelled. -/
def mockAst (code : String) : DictNode :=
  .node "compilation_unit" 0 (numLines code) (pyTake 100 code)
    [.node "class_declaration" 0 10 "Parsed structure" []]

structure ASTResponse where
  success : Bool
  ast : Option DictNode
  semantic_tree : Option Semantic
  error : Option String

/-- The parse endpoint (non-exceptional path). -/
def parse_code (parser_c_sharp : Option ParserFun) (code source_lang : String) : ASTResponse :=
  let ast_data :=
    match parse_code_to_ast parser_c_sharp code source_lang with
    | some a => a
    | none => mockAst code
  ⟨true, some ast_data, some (build_semantic_tree ast_data), none⟩

/-- A structured error or warning entry of the validate endpoint: the
message and the optional line key. -/
structure WarnDict where
  message : String
  line : Option Nat
deriving DecidableEq, Repr

structure ValidateResponse where
  valid : Bool
  errors : List WarnDict
  warnings : List WarnDict
deriving DecidableEq, Repr

/-- The validate endpoint (lines 434 to 463, non-exceptional path): an
ungrammared dialect returns early with the parser-availability warning;
otherwise the only heuristic is the minimum stripped length of 10. -/
def validate_code (parser_c_sharp : Option ParserFun) (code language : String) :
    ValidateResponse :=
  match parse_code_to_ast parser_c_sharp code language with
  | none =>
    ⟨true, [], [⟨"Parser not available for this language. Basic validation only.", none⟩]⟩
  | some _ =>
    let errors : List WarnDict := []
    let warnings : List WarnDict :=
      if (pyStrip code).length < 10 then [⟨"Code is very short", some 0⟩] else []
    ⟨errors.length == 0, errors, warnings⟩

/-! ## Augmentation gateway and transpile endpoint (server.py lines 388 to 432, 465 to 498) -/

structure MCPConfig where
  server_url : Option String
  api_key : Option String

/-- What the single outbound HTTP exchange did: an exception (network
failure, timeout, malformed response) or a response with a status code and
the two recognized payload fields. -/
inductive NetOutcome where
  | exn (msg : String)
  | response (status_code : Nat) (result : Option String) (transpiled_code : Option String)

structure MCPResult where
  success : Bool
  transpiled_code : Option String
  error : Option String
deriving DecidableEq, Repr

/-- call_mcp_server: a 200 response extracts result, falling back to
transpiled_code then the empty string; any other status or any exception
is a declared failure. -/
def call_mcp_server (_server_url : Option String) (_api_key : Option String)
    (_ast_data : DictNode) (_source_code _source_lang _target_lang : String)
    (net : NetOutcome) : MCPResult :=
  match net with
  | .exn e => ⟨false, none, some e⟩
  | .response status res tc =>
    if status == 200 then ⟨true, some (res.getD (tc.getD "")), none⟩
    else ⟨false, none, some ("MCP server returned " ++ toString status)⟩

/-- The transport failed to deliver a success response. -/
def netFails (net : NetOutcome) : Bool :=
  match net with
  | .exn _ => true
  | .response status _ _ => status != 200

structure TranspileRequest where
  code : String
  source_lang : String
  target_lang : String
  use_mcp : Bool
  mcp_config : Option MCPConfig

structure TranspileResponse where
  success : Bool
  transpiled_code : Option String
  warnings : List String
  errors : List String
  method : String
deriving DecidableEq, Repr

/-- The rule-based arm of the transpile endpoint (lines 412 to 425). -/
def ruleBasedResponse (req : TranspileRequest) : TranspileResponse :=
  let r := transpile_rule_based req.code req.source_lang req.target_lang
  ⟨r.2.2.isEmpty, some r.1, r.2.1, r.2.2, "rule-based"⟩

/-- The transpile endpoint (lines 388 to 425, non-exceptional path): the
MCP arm runs only when requested, configured, and a parse tree exists, and
only a successful MCP response short-circuits the rule-based arm. -/
def transpile_code (req : TranspileRequest) (net : NetOutcome)
    (parser_c_sharp : Option ParserFun) : TranspileResponse :=
  if req.use_mcp && req.mcp_config.isSome then
    match parse_code_to_ast parser_c_sharp req.code req.source_lang with
    | some ast_data =>
      let cfg := req.mcp_config.getD ⟨none, none⟩
      let m := call_mcp_server cfg.server_url cfg.api_key ast_data req.code
        req.source_lang req.target_lang net
      if m.success then ⟨true, m.transpiled_code, ["Transpiled using MCP agent"], [], "mcp-ai"⟩
      else ruleBasedResponse req
    | none => ruleBasedResponse req
  else ruleBasedResponse req

/-! ## Induction principles for the nested tree types -/

theorem tsNodeInduction {P : TSNode → Prop}
    (h : ∀ kind sp ep tx cs, (∀ c ∈ cs, P c) → P (.mk kind sp ep tx cs)) :
    ∀ n, P n
  | .mk kind sp ep tx cs => h kind sp ep tx cs (fun c hc => tsNodeInduction h c)
termination_by n => sizeOf n
decreasing_by
  simp_wf
  have := List.sizeOf_lt_of_mem hc
  omega

theorem dictNodeInduction {P : DictNode → Prop}
    (hs : P .sentinel)
    (hn : ∀ kind sl el tx cs, (∀ c ∈ cs, P c) → P (.node kind sl el tx cs)) :
    ∀ t, P t
  | .sentinel => hs
  | .node kind sl el tx cs => hn kind sl el tx cs (fun c hc => dictNodeInduction hs hn c)
termination_by t => sizeOf t
decreasing_by
  simp_wf
  have := List.sizeOf_lt_of_mem hc
  omega

/-! ## Helper lemmas for C4 -/

lemma listToDict_length (cs : List TSNode) (k md cd : Nat) :
    (listToDict cs k md cd).length ≤ k := by
  induction cs generalizing k with
  | nil => simp [listToDict]
  | cons c cs ih =>
    cases k with
    | zero => simp [listToDict]
    | succ k => simpa [listToDict, Nat.succ_le_succ_iff] using ih k

lemma listToDict_mem {cs : List TSNode} {k md cd : Nat} {d : DictNode}
    (h : d ∈ listToDict cs k md cd) : ∃ c ∈ cs, d = tree_to_dict c md cd := by
  induction cs generalizing k with
  | nil => simp [listToDict] at h
  | cons c cs ih =>
    cases k with
    | zero => simp [listToDict] at h
    | succ k =>
      simp only [listToDict, List.mem_cons] at h
      rcases h with h | h
      · exact ⟨c, by simp, h⟩
      · obtain ⟨c1, hc1, hd⟩ := ih h
        exact ⟨c1, by simp [hc1], hd⟩

lemma dHeightList_le {K : Nat} {xs : List DictNode}
    (h : ∀ x ∈ xs, dHeight x + 1 ≤ K) : dHeightList xs ≤ K := by
  induction xs with
  | nil => simp [dHeightList]
  | cons x xs ih =>
    simp only [dHeightList]
    exact max_le (h x (by simp)) (ih (fun y hy => h y (by simp [hy])))

lemma dBoundedList_of {xs : List DictNode}
    (h : ∀ x ∈ xs, dBounded x = true) : dBoundedList xs = true := by
  induction xs with
  | nil => rfl
  | cons x xs ih =>
    simp only [dBoundedList, Bool.and_eq_true]
    exact ⟨h x (by simp), ih (fun y hy => h y (by simp [hy]))⟩

lemma tree_to_dict_bounds (n : TSNode) : ∀ (md cd : Nat),
    dHeight (tree_to_dict n md cd) ≤ md - cd ∧ dBounded (tree_to_dict n md cd) = true := by
  induction n using tsNodeInduction with
  | h kind sp ep tx cs ih =>
    intro md cd
    by_cases h1 : cd > md
    · simp [tree_to_dict, h1, dHeight, dBounded]
    · by_cases h2 : (decide (cs.length > 0) && decide (cd < md)) = true
      · have hlt : cd < md := by
          simp only [Bool.and_eq_true, decide_eq_true_eq] at h2
          exact h2.2
        simp only [tree_to_dict, if_neg h1, h2, if_true]
        constructor
        · simp only [dHeight]
          apply dHeightList_le
          intro x hx
          obtain ⟨c, hc, rfl⟩ := listToDict_mem hx
          have := (ih c hc md (cd + 1)).1
          omega
        · simp only [dBounded, Bool.and_eq_true, decide_eq_true_eq]
          refine ⟨listToDict_length cs 20 md (cd + 1), dBoundedList_of ?_⟩
          intro x hx
          obtain ⟨c, hc, rfl⟩ := listToDict_mem hx
          exact (ih c hc md (cd + 1)).2
      · simp only [tree_to_dict, if_neg h1, h2, if_false]
        simp [dHeight, dHeightList, dBounded, dBoundedList]

/-- C4: for every input tree, the output of the tree normalizer contains no
node deeper than the cap of 50, no node with more than 20 children, and the
depth sentinel carries no children. -/
theorem claim_C4 (n : TSNode) :
    dHeight (tree_to_dict n 50 0) ≤ 50 ∧ dBounded (tree_to_dict n 50 0) = true ∧
      dictChildren DictNode.sentinel = [] :=
  ⟨(tree_to_dict_bounds n 50 0).1, (tree_to_dict_bounds n 50 0).2, rfl⟩

/-! ## Helper lemmas for C1, C2 -/

lemma strStarts_self_append (p r : Str) : strStarts p (p ++ r) = true := by
  induction p with
  | nil => simp [strStarts]
  | cons c cs ih => simp [strStarts, ih]

lemma not_supported_of_eq {s t : String} (h : s = t) : ¬ supportedPair s t := by
  subst h
  intro hsup
  rcases hsup with ⟨h1, h2⟩ | ⟨h1, h2⟩ | ⟨h1, h2⟩ | ⟨h1, h2⟩
  · rw [h1] at h2; exact absurd h2 (by decide)
  · rcases h2 with h2 | h2 <;> (rw [h1] at h2; exact absurd h2 (by decide))
  · rcases h1 with h1 | h1 <;> (rw [h1] at h2; exact absurd h2 (by decide))
  · rcases h2 with h2 | h2 <;> (rw [h1] at h2; exact absurd h2 (by decide))

lemma unsupportedMsg_ends (source_lang target_lang : String) :
    strEnds "not supported".data (unsupportedMsg source_lang target_lang).data = true := by
  unfold strEnds unsupportedMsg
  have hdata : ("Conversion from " ++ source_lang ++ " to " ++ target_lang ++
      " not supported").data =
      ("Conversion from ".data ++ source_lang.data ++ " to ".data ++ target_lang.data) ++
        (' ' :: "not supported".data) := by
    simp [String.data_append, List.append_assoc]
  rw [hdata, List.reverse_append]
  have : (' ' :: "not supported".data).reverse =
      "not supported".data.reverse ++ [' '] := by simp
  rw [this, List.append_assoc]
  exact strStarts_self_append _ _

lemma transpile_rule_based_unsupported {code source_lang target_lang : String}
    (hns : ¬ supportedPair (normalize_lang source_lang) (normalize_lang target_lang)) :
    transpile_rule_based code source_lang target_lang =
      (code, [], [unsupportedMsg source_lang target_lang]) := by
  have c1 : ¬ (normalize_lang source_lang = "vb" ∧ normalize_lang target_lang = "vbnet") :=
    fun hc => hns (Or.inl hc)
  have c2 : ¬ (normalize_lang source_lang = "vbnet" ∧
      (normalize_lang target_lang = "csharp" ∨ normalize_lang target_lang = "c#")) :=
    fun hc => hns (Or.inr (Or.inl hc))
  have c3 : ¬ ((normalize_lang source_lang = "csharp" ∨ normalize_lang source_lang = "c#") ∧
      normalize_lang target_lang = "vbnet") :=
    fun hc => hns (Or.inr (Or.inr (Or.inl hc)))
  have c4 : ¬ (normalize_lang source_lang = "vb" ∧
      (normalize_lang target_lang = "csharp" ∨ normalize_lang target_lang = "c#")) :=
    fun hc => hns (Or.inr (Or.inr (Or.inr hc)))
  simp only [transpile_rule_based]
  rw [if_neg c1, if_neg c2, if_neg c3, if_neg c4]

/-- C1: every dialect pair outside the four supported combinations, and in
particular every pair with equal normalized tags, yields success false, one
error message ending in "not supported", zero warnings, and the input text
echoed back unchanged. -/
theorem claim_C1 (code source_lang target_lang : String) (net : NetOutcome)
    (parser_c_sharp : Option ParserFun)
    (h : ¬ supportedPair (normalize_lang source_lang) (normalize_lang target_lang) ∨
         normalize_lang source_lang = normalize_lang target_lang) :
    transpile_rule_based code source_lang target_lang =
      (code, [], [unsupportedMsg source_lang target_lang])
    ∧ transpile_code ⟨code, source_lang, target_lang, false, none⟩ net parser_c_sharp =
      ⟨false, some code, [], [unsupportedMsg source_lang target_lang], "rule-based"⟩
    ∧ strEnds "not supported".data (unsupportedMsg source_lang target_lang).data = true := by
  have hns : ¬ supportedPair (normalize_lang source_lang) (normalize_lang target_lang) := by
    rcases h with h | h
    · exact h
    · exact not_supported_of_eq h
  have h1 := @transpile_rule_based_unsupported code source_lang target_lang hns
  refine ⟨h1, ?_, unsupportedMsg_ends source_lang target_lang⟩
  simp only [transpile_code, ruleBasedResponse, h1]
  rfl

/-- C1 witness: the identical pair vbnet to vbnet on a concrete input. -/
theorem claim_C1_witness :
    normalize_lang "vbnet" = normalize_lang "vbnet"
  ∧ transpile_rule_based "Public Class Test\nEnd Class" "vbnet" "vbnet" =
      ("Public Class Test\nEnd Class", [], [unsupportedMsg "vbnet" "vbnet"])
  ∧ transpile_code ⟨"Public Class Test\nEnd Class", "vbnet", "vbnet", false, none⟩
      (.exn "down") none =
      ⟨false, some "Public Class Test\nEnd Class", [], [unsupportedMsg "vbnet" "vbnet"],
       "rule-based"⟩ := by
  have h := claim_C1 "Public Class Test\nEnd Class" "vbnet" "vbnet" (.exn "down") none
    (Or.inr rfl)
  exact ⟨rfl, h.1, h.2.1⟩

/-! ## Helper lemmas for C5 and C9 -/

lemma call_mcp_fails (u k : Option String) (a : DictNode) (c s t : String) {net : NetOutcome}
    (h : netFails net = true) :
    (call_mcp_server u k a c s t net).success = false := by
  cases net with
  | exn e => rfl
  | response st res tc =>
    have h2 : (st == 200) = false := by
      simp only [netFails, bne_iff_ne, ne_eq] at h
      simpa using h
    simp [call_mcp_server, h2]

/-- C5 counterexample: a well-formed 200 response carrying neither
recognized payload field is not treated as a malformed response: the
gateway reports success with the empty string extracted, and the transpile
endpoint returns the agent-augmented tag with no fallback to the
rule-based result, contradicting the claim. -/
theorem claim_C5_counterexample :
    call_mcp_server (some "http://mcp.example") none
      (tree_to_dict (TSNode.mk "compilation_unit" 0 0 none []) 50 0)
      "" "csharp" "vbnet" (NetOutcome.response 200 none none) =
      ⟨true, some "", none⟩
  ∧ transpile_code ⟨"", "csharp", "vbnet", true, some ⟨some "http://mcp.example", none⟩⟩
      (NetOutcome.response 200 none none)
      (some (fun _ => TSNode.mk "compilation_unit" 0 0 none [])) =
      ⟨true, some "", ["Transpiled using MCP agent"], [], "mcp-ai"⟩ := by
  decide

/-- C5 amended: on every augmentation call whose transport fails in a way
the source treats as a failure, namely an exception (network failure,
timeout, or a response body that fails to parse) or a non-success status
code, the transpile endpoint returns the rule-based result and its method
tag is not the agent-augmented one.  A well-formed 200 response carrying
neither recognized field is outside this set: it is accepted as a success
(see the counterexample). -/
theorem claim_C5_amended (req : TranspileRequest) (net : NetOutcome)
    (parser_c_sharp : Option ParserFun) (h : netFails net = true) :
    transpile_code req net parser_c_sharp = ruleBasedResponse req ∧
    (transpile_code req net parser_c_sharp).method ≠ "mcp-ai" := by
  have heq : transpile_code req net parser_c_sharp = ruleBasedResponse req := by
    unfold transpile_code
    split
    · cases hp : parse_code_to_ast parser_c_sharp req.code req.source_lang with
      | none => rfl
      | some ast => simp [call_mcp_fails _ _ _ _ _ _ h]
    · rfl
  refine ⟨heq, ?_⟩
  rw [heq]
  simp [ruleBasedResponse]

/-- C5 amended witness: augmentation requested and configured, transport raises. -/
theorem claim_C5_amended_witness :
    netFails (NetOutcome.exn "connection refused") = true
  ∧ transpile_code
      ⟨"", "csharp", "vbnet", true, some ⟨some "http://unreachable.example", none⟩⟩
      (NetOutcome.exn "connection refused")
      (some (fun _ => TSNode.mk "ERROR" 0 0 none [])) =
      ruleBasedResponse
        ⟨"", "csharp", "vbnet", true, some ⟨some "http://unreachable.example", none⟩⟩
  ∧ (transpile_code
      ⟨"", "csharp", "vbnet", true, some ⟨some "http://unreachable.example", none⟩⟩
      (NetOutcome.exn "connection refused")
      (some (fun _ => TSNode.mk "ERROR" 0 0 none []))).method ≠ "mcp-ai"
  ∧ ruleBasedResponse
      ⟨"", "csharp", "vbnet", true, some ⟨some "http://unreachable.example", none⟩⟩ =
      ⟨true, some "", ["Converted C# to VB.NET. Review semicolons and brackets."], [],
       "rule-based"⟩ :=
  ⟨by decide, (claim_C5_amended _ _ _ (by decide)).1, (claim_C5_amended _ _ _ (by decide)).2, by decide⟩

/-! ## Helper lemmas for C9 -/

lemma normalize_not_cs {s : String}
    (h : normalize_lang s = "vb" ∨ normalize_lang s = "vbnet") :
    ¬ pyLower s ∈ (["c#", "csharp", "c_sharp"] : List String) := by
  intro hmem
  simp only [List.mem_cons, List.mem_singleton, List.not_mem_nil, or_false] at hmem
  have hcs : normalize_lang s = "c#" ∨ normalize_lang s = "csharp" ∨
      normalize_lang s = "c_sharp" := by
    unfold normalize_lang
    rcases hmem with h1 | h1 | h1 <;> rw [h1]
    · exact Or.inl (by decide)
    · exact Or.inr (Or.inl (by decide))
    · exact Or.inr (Or.inr (by decide))
  rcases hcs with h2 | h2 | h2 <;> rw [h2] at h <;>
    rcases h with h | h <;> exact absurd h (by decide)

/-- C9: when the declared source dialect normalizes to one of the two
ungrammared dialects, the augmentation gateway can never run (no parse tree
exists), the result is always the rule-based one and the method tag is the
rule-based tag, never the agent-augmented one. -/
theorem claim_C9 (req : TranspileRequest) (net : NetOutcome)
    (parser_c_sharp : Option ParserFun)
    (h : normalize_lang req.source_lang = "vb" ∨ normalize_lang req.source_lang = "vbnet") :
    transpile_code req net parser_c_sharp = ruleBasedResponse req ∧
    (transpile_code req net parser_c_sharp).method = "rule-based" ∧
    (transpile_code req net parser_c_sharp).method ≠ "mcp-ai" := by
  have hparse : parse_code_to_ast parser_c_sharp req.code req.source_lang = none := by
    unfold parse_code_to_ast
    rw [if_neg (normalize_not_cs h)]
  have heq : transpile_code req net parser_c_sharp = ruleBasedResponse req := by
    unfold transpile_code
    split
    · rw [hparse]
    · rfl
  refine ⟨heq, ?_, ?_⟩ <;> rw [heq] <;> simp [ruleBasedResponse]

/-- C9 witness: an ungrammared source dialect with augmentation enabled,
configured, and a cooperative server; the result is still rule-based. -/
theorem claim_C9_witness :
    normalize_lang "vbnet" = "vbnet"
  ∧ transpile_code
      ⟨"", "vbnet", "csharp", true, some ⟨some "http://mcp.example", some "key"⟩⟩
      (NetOutcome.response 200 (some "server output") none)
      (some (fun _ => TSNode.mk "compilation_unit" 0 0 none [])) =
      ruleBasedResponse
        ⟨"", "vbnet", "csharp", true, some ⟨some "http://mcp.example", some "key"⟩⟩
  ∧ (transpile_code
      ⟨"", "vbnet", "csharp", true, some ⟨some "http://mcp.example", some "key"⟩⟩
      (NetOutcome.response 200 (some "server output") none)
      (some (fun _ => TSNode.mk "compilation_unit" 0 0 none []))).method = "rule-based"
  ∧ ruleBasedResponse
      ⟨"", "vbnet", "csharp", true, some ⟨some "http://mcp.example", some "key"⟩⟩ =
      ⟨true, some "", ["Converted VB.NET to C#. Review Option Strict and type conversions."],
       [], "rule-based"⟩ :=
  ⟨rfl,
   (claim_C9 ⟨"", "vbnet", "csharp", true, some ⟨some "http://mcp.example", some "key"⟩⟩
     (NetOutcome.response 200 (some "server output") none)
     (some (fun _ => TSNode.mk "compilation_unit" 0 0 none [])) (Or.inr rfl)).1,
   (claim_C9 ⟨"", "vbnet", "csharp", true, some ⟨some "http://mcp.example", some "key"⟩⟩
     (NetOutcome.response 200 (some "server output") none)
     (some (fun _ => TSNode.mk "compilation_unit" 0 0 none [])) (Or.inr rfl)).2.1,
   by decide⟩

/-! ## Helper lemmas for C7 and C10 -/

lemma classifyInto_class {acc : Semantic} {ty tx : String} {ln : Nat}
    (h : hasSub "class" (pyLower ty) = true) :
    classifyInto acc ty tx ln =
      { acc with classes := acc.classes ++ [⟨pyTake 50 tx, ln⟩] } := by
  simp [classifyInto, h]

lemma classifyInto_method {acc : Semantic} {ty tx : String} {ln : Nat}
    (h1 : hasSub "class" (pyLower ty) = false)
    (h2 : (hasSub "method" (pyLower ty) || hasSub "function" (pyLower ty)) = true) :
    classifyInto acc ty tx ln =
      { acc with methods := acc.methods ++ [⟨pyTake 50 tx, ln⟩] } := by
  simp [classifyInto, h1, h2]

lemma classifyInto_prop {acc : Semantic} {ty tx : String} {ln : Nat}
    (h1 : hasSub "class" (pyLower ty) = false)
    (h2 : (hasSub "method" (pyLower ty) || hasSub "function" (pyLower ty)) = false)
    (h3 : (hasSub "property" (pyLower ty) || hasSub "field" (pyLower ty)) = true) :
    classifyInto acc ty tx ln =
      { acc with properties := acc.properties ++ [⟨pyTake 50 tx, ln⟩] } := by
  simp [classifyInto, h1, h2, h3]

lemma classifyInto_none {acc : Semantic} {ty tx : String} {ln : Nat}
    (h : matchesAny ty = false) : classifyInto acc ty tx ln = acc := by
  simp only [matchesAny, Bool.or_eq_false_iff] at h
  obtain ⟨⟨⟨⟨hc, hm⟩, hf⟩, hp⟩, hd⟩ := h
  simp [classifyInto, hc, hm, hf, hp, hd]

lemma traverse_noMatch : ∀ (t : DictNode), allNoMatch t = true →
    ∀ acc, travNode acc t = acc := by
  intro t
  induction t using dictNodeInduction with
  | hs =>
    intro _ acc
    simp only [travNode]
    exact classifyInto_none (by decide)
  | hn kind sl el tx cs ih =>
    intro hall acc
    simp only [allNoMatch, Bool.and_eq_true, Bool.not_eq_true'] at hall
    simp only [travNode]
    rw [classifyInto_none hall.1]
    have hlist : ∀ (l : List DictNode), allNoMatchList l = true →
        (∀ c ∈ l, allNoMatch c = true → ∀ a, travNode a c = a) →
        ∀ a, travList a l = a := by
      intro l
      induction l with
      | nil => intros; rfl
      | cons c cs2 ih2 =>
        intro hl hallc a
        simp only [allNoMatchList, Bool.and_eq_true] at hl
        simp only [travList]
        rw [hallc c (by simp) hl.1]
        exact ih2 hl.2 (fun c2 hc2 => hallc c2 (by simp [hc2])) a
    exact hlist cs hall.2 (fun c hc hnm a => ih c hc hnm a) acc

lemma classifyInto_imports (acc : Semantic) (ty tx : String) (ln : Nat) :
    (classifyInto acc ty tx ln).imports = acc.imports := by
  simp only [classifyInto]
  repeat' split
  all_goals rfl

lemma traverse_imports : ∀ (t : DictNode) (acc : Semantic),
    (travNode acc t).imports = acc.imports := by
  intro t
  induction t using dictNodeInduction with
  | hs =>
    intro acc
    simp only [travNode]
    exact classifyInto_imports _ _ _ _
  | hn kind sl el tx cs ih =>
    intro acc
    simp only [travNode]
    have hlist : ∀ (l : List DictNode),
        (∀ c ∈ l, ∀ a, (travNode a c).imports = a.imports) →
        ∀ a, (travList a l).imports = a.imports := by
      intro l
      induction l with
      | nil => intros; rfl
      | cons c cs2 ih2 =>
        intro hc a
        simp only [travList]
        rw [ih2 (fun x hx => hc x (by simp [hx])), hc c (by simp)]
    rw [hlist cs (fun c hc a => ih c hc a), classifyInto_imports]

/-- C7: the semantic summarizer classifies each node by case-insensitive
substring match on its kind tag in the fixed order class, then method or
function, then property or field, first match winning and each node feeding
at most one category; a tree with no matching node yields four empty lists,
the depth sentinel kind never matches, and the import list is always empty. -/
theorem claim_C7 (t : DictNode) (ty tx : String) (ln : Nat) (acc : Semantic) :
    (allNoMatch t = true → build_semantic_tree t = ⟨[], [], [], []⟩)
  ∧ matchesAny "max_depth_reached" = false
  ∧ (hasSub "class" (pyLower ty) = true →
      classifyInto acc ty tx ln = { acc with classes := acc.classes ++ [⟨pyTake 50 tx, ln⟩] })
  ∧ (hasSub "class" (pyLower ty) = false →
      (hasSub "method" (pyLower ty) || hasSub "function" (pyLower ty)) = true →
      classifyInto acc ty tx ln = { acc with methods := acc.methods ++ [⟨pyTake 50 tx, ln⟩] })
  ∧ (hasSub "class" (pyLower ty) = false →
      (hasSub "method" (pyLower ty) || hasSub "function" (pyLower ty)) = false →
      (hasSub "property" (pyLower ty) || hasSub "field" (pyLower ty)) = true →
      classifyInto acc ty tx ln =
        { acc with properties := acc.properties ++ [⟨pyTake 50 tx, ln⟩] })
  ∧ (matchesAny ty = false → classifyInto acc ty tx ln = acc)
  ∧ (build_semantic_tree t).imports = [] := by
  refine ⟨fun h => traverse_noMatch t h _, by decide,
    fun h => classifyInto_class h,
    fun h1 h2 => classifyInto_method h1 h2,
    fun h1 h2 h3 => classifyInto_prop h1 h2 h3,
    fun h => classifyInto_none h,
    traverse_imports t ⟨[], [], [], []⟩⟩

/-- C7 witness: a concrete no-match tree and concrete kind tags of each kind. -/
theorem claim_C7_witness :
    build_semantic_tree (DictNode.node "identifier" 0 0 "x" [DictNode.sentinel]) =
      ⟨[], [], [], []⟩
  ∧ classifyInto ⟨[], [], [], []⟩ "class_declaration" "Public Class C" 3 =
      ⟨[⟨"Public Class C", 3⟩], [], [], []⟩
  ∧ classifyInto ⟨[], [], [], []⟩ "method_declaration" "Sub M" 7 =
      ⟨[], [⟨"Sub M", 7⟩], [], []⟩
  ∧ classifyInto ⟨[], [], [], []⟩ "identifier" "x" 1 = ⟨[], [], [], []⟩ := by
  refine ⟨?_, ?_, ?_, ?_⟩
  · exact (claim_C7 (DictNode.node "identifier" 0 0 "x" [DictNode.sentinel])
      "x" "x" 0 ⟨[], [], [], []⟩).1 (by decide)
  · have h := (claim_C7 DictNode.sentinel "class_declaration" "Public Class C" 3
      ⟨[], [], [], []⟩).2.2.1 (by decide)
    rw [h]; decide
  · have h := (claim_C7 DictNode.sentinel "method_declaration" "Sub M" 7
      ⟨[], [], [], []⟩).2.2.2.1 (by decide) (by decide)
    rw [h]; decide
  · exact (claim_C7 DictNode.sentinel "identifier" "x" 1 ⟨[], [], [], []⟩).2.2.2.2.2.1
      (by decide)

/-- C10: for every parse request in a dialect with no grammar, the endpoint
returns the synthesized placeholder tree, whose semantic summary holds
exactly one declared type named Parsed structure at line 0 and three empty
lists, regardless of the input text. -/
theorem claim_C10 (parser_c_sharp : Option ParserFun) (code source_lang : String)
    (h : ¬ pyLower source_lang ∈ (["c#", "csharp", "c_sharp"] : List String)) :
    parse_code parser_c_sharp code source_lang =
      ⟨true, some (mockAst code), some ⟨[⟨"Parsed structure", 0⟩], [], [], []⟩, none⟩ := by
  have hparse : parse_code_to_ast parser_c_sharp code source_lang = none := by
    unfold parse_code_to_ast
    rw [if_neg h]
  have hsem : build_semantic_tree (mockAst code) = ⟨[⟨"Parsed structure", 0⟩], [], [], []⟩ := by
    unfold build_semantic_tree mockAst
    simp only [travNode, travList]
    rw [show classifyInto ⟨[], [], [], []⟩ "compilation_unit" (pyTake 100 code) 0 =
      ⟨[], [], [], []⟩ from classifyInto_none (by decide)]
    decide
  simp only [parse_code, hparse, hsem]

/-- C10 witness: an ungrammared tag and arbitrary text. -/
theorem claim_C10_witness :
    ¬ pyLower "vb" ∈ (["c#", "csharp", "c_sharp"] : List String)
  ∧ (parse_code none "hello world" "vb").semantic_tree =
      some ⟨[⟨"Parsed structure", 0⟩], [], [], []⟩ := by
  refine ⟨by decide, ?_⟩
  rw [claim_C10 none "hello world" "vb" (by decide)]

/-! ## C2: the composed legacy to C-family path -/

/-- C2 counterexample: on the legacy to C-family path the warning list has
exactly one element, the general two-step warning; neither hop warning is
present, and the method tag equals the tag of the direct rule-based paths
rather than a distinct composed tag. -/
theorem claim_C2_counterexample :
    transpile_rule_based "Dim x As Integer" "vb" "csharp" =
      ("int x;", ["Two-step conversion (VB -> VB.NET -> C#). Extensive testing required."], [])
  ∧ (transpile_rule_based "Dim x As Integer" "vb" "csharp").2.1.length = 1
  ∧ ¬ "Manual review recommended: Some VB6 features may not be directly compatible with VB.NET"
      ∈ (transpile_rule_based "Dim x As Integer" "vb" "csharp").2.1
  ∧ ¬ "Converted VB.NET to C#. Review Option Strict and type conversions."
      ∈ (transpile_rule_based "Dim x As Integer" "vb" "csharp").2.1
  ∧ (transpile_code ⟨"Dim x As Integer", "vb", "csharp", false, none⟩ (.exn "") none).method =
      "rule-based"
  ∧ (transpile_code
      ⟨"Public Class A\nEnd Class", "vbnet", "csharp", false, none⟩ (.exn "") none).method =
      "rule-based" := by
  decide

/-- C2 amended: on every legacy to C-family request the engine composes the
two rule sets, emits exactly the one general two-step warning (the hop
warnings are not included), and the method tag is the same rule-based tag
used by the direct paths. -/
theorem claim_C2_amended (code source_lang target_lang : String) (net : NetOutcome)
    (parser_c_sharp : Option ParserFun)
    (hs : normalize_lang source_lang = "vb")
    (ht : normalize_lang target_lang = "csharp" ∨ normalize_lang target_lang = "c#") :
    transpile_rule_based code source_lang target_lang =
      (transpile_vbnet_to_csharp (transpile_vb_to_vbnet code),
       ["Two-step conversion (VB -> VB.NET -> C#). Extensive testing required."], [])
  ∧ (transpile_code ⟨code, source_lang, target_lang, false, none⟩ net parser_c_sharp).method =
      "rule-based" := by
  constructor
  · simp only [transpile_rule_based]
    rcases ht with ht | ht <;> rw [hs, ht] <;> simp
  · simp only [transpile_code, Bool.false_and, Bool.and_self]
    rfl

/-- C2 amended witness: the Scenario C style input. -/
theorem claim_C2_amended_witness :
    (transpile_rule_based "Dim x As Integer" "vb" "csharp").2.1 =
      ["Two-step conversion (VB -> VB.NET -> C#). Extensive testing required."]
  ∧ (transpile_code ⟨"Dim x As Integer", "vb", "csharp", false, none⟩ (.exn "x") none).method =
      "rule-based" := by
  have h := claim_C2_amended "Dim x As Integer" "vb" "csharp" (.exn "x") none rfl (Or.inl rfl)
  exact ⟨by rw [h.1], h.2⟩

/-! ## C3: case sensitivity and word anchoring of the rule sets -/

/-- C3 counterexample: the single identifier ElseIfy (all word characters)
is rewritten from the inside by the modernized to C-family rule set, and a
lower-case spelling of a legacy keyword phrase is not matched by the legacy
to modernized rule set although the canonical spelling is rewritten. -/
theorem claim_C3_counterexample :
    "ElseIfy".data.all isWordChar = true
  ∧ transpile_vbnet_to_csharp "ElseIfy" = "\x7d \x7d else \x7b ify"
  ∧ ¬ transpile_vbnet_to_csharp "ElseIfy" = "ElseIfy"
  ∧ transpile_vb_to_vbnet "Dim  x  As  Integer" = "Dim x As Integer"
  ∧ transpile_vb_to_vbnet "dim  x  as  integer" = "dim  x  as  integer" := by
  decide

/-- C3 amended: only the modernized to C-family rule set matches
case-insensitively (the other two rule sets pass no IGNORECASE flag), and
word-boundary anchoring holds for many keyword rules but not for all of
them, so rules can rewrite inside larger identifiers. -/
theorem claim_C3_amended :
    vbnet_to_csharp_ignorecase = true
  ∧ vb_to_vbnet_ignorecase = false
  ∧ csharp_to_vbnet_ignorecase = false
  ∧ transpile_vbnet_to_csharp "end class" = "\x7d"
  ∧ transpile_vbnet_to_csharp "END CLASS" = "\x7d"
  ∧ transpile_vbnet_to_csharp "CannotDo" = "CannotDo" := by
  decide

/-! ## C6: Scenario A -/

/-- C6: the modernized to C-family translation of the two-line class body
yields text containing public class Calculator, containing a closing brace,
ending in a line holding exactly the closing brace, with exactly one
advisory warning, which mentions type conversions. -/
theorem claim_C6 :
    transpile_rule_based "Public Class Calculator\nEnd Class" "vbnet" "csharp" =
      ("public class Calculator \x7b \x7b\n\x7d",
       ["Converted VB.NET to C#. Review Option Strict and type conversions."], [])
  ∧ hasSub "public class Calculator"
      (transpile_rule_based "Public Class Calculator\nEnd Class" "vbnet" "csharp").1 = true
  ∧ hasSub "\x7d"
      (transpile_rule_based "Public Class Calculator\nEnd Class" "vbnet" "csharp").1 = true
  ∧ strEnds "\n\x7d".data
      (transpile_rule_based "Public Class Calculator\nEnd Class" "vbnet" "csharp").1.data = true
  ∧ (transpile_rule_based "Public Class Calculator\nEnd Class" "vbnet" "csharp").2.1.length = 1
  ∧ hasSub "type conversions"
      "Converted VB.NET to C#. Review Option Strict and type conversions." = true := by
  decide

/-! ## C8: the validate endpoint -/

/-- C8 counterexample: a below-minimum-length input in an ungrammared
dialect does not receive the short-code warning; the endpoint returns early
with only the parser-availability warning. -/
theorem claim_C8_counterexample :
    (pyStrip "x = 1").length < 10
  ∧ validate_code none "x = 1" "vbnet" =
      ⟨true, [],
       [⟨"Parser not available for this language. Basic validation only.", none⟩]⟩
  ∧ ¬ (⟨"Code is very short", some 0⟩ : WarnDict) ∈
      (validate_code none "x = 1" "vbnet").warnings := by
  decide

/-- C8 amended: the minimum-length heuristic runs only when a parse tree is
produced; when the dialect has no grammar the endpoint returns early with
validity true and the grammar-absence warning (a warning, not an error), so
short inputs in ungrammared dialects get no short-code warning. -/
theorem claim_C8_amended (parser_c_sharp : Option ParserFun) (code language : String) :
    (parse_code_to_ast parser_c_sharp code language = none →
      validate_code parser_c_sharp code language =
        ⟨true, [],
         [⟨"Parser not available for this language. Basic validation only.", none⟩]⟩)
  ∧ (∀ a, parse_code_to_ast parser_c_sharp code language = some a →
      (pyStrip code).length < 10 →
      validate_code parser_c_sharp code language =
        ⟨true, [], [⟨"Code is very short", some 0⟩]⟩)
  ∧ (∀ a, parse_code_to_ast parser_c_sharp code language = some a →
      ¬ (pyStrip code).length < 10 →
      validate_code parser_c_sharp code language = ⟨true, [], []⟩) := by
  refine ⟨fun h => ?_, fun a h hlen => ?_, fun a h hlen => ?_⟩
  · unfold validate_code
    rw [h]
  · unfold validate_code
    rw [h]
    simp [hlen]
  · unfold validate_code
    rw [h]
    simp [hlen]

/-- C8 amended witness: both arms at concrete inputs. -/
theorem claim_C8_amended_witness :
    validate_code none "x = 1" "vbnet" =
      ⟨true, [],
       [⟨"Parser not available for this language. Basic validation only.", none⟩]⟩
  ∧ validate_code (some (fun _ => TSNode.mk "compilation_unit" 0 0 none []))
      "x = 1" "csharp" = ⟨true, [], [⟨"Code is very short", some 0⟩]⟩ := by
  constructor
  · exact (claim_C8_amended none "x = 1" "vbnet").1 rfl
  · exact (claim_C8_amended (some (fun _ => TSNode.mk "compilation_unit" 0 0 none []))
      "x = 1" "csharp").2.1
      (tree_to_dict (TSNode.mk "compilation_unit" 0 0 none []) 50 0) rfl (by decide)
